import Mathlib

/-!
Shallow embedding of the easeTransfer session/transfer hub (the session-aware,
in-memory server variant): the session registry, the per-connection protocol
handlers, the chunked upload and download paths, the broadcaster and the
janitor, together with proofs of the behavioural properties stated for them.

Conventions of the embedding:
* A JavaScript Map object is an insertion-ordered association list with
  unique keys (set on an existing key updates in place, on a new key appends).
* A Buffer is a list of byte values (Nat, each 0..255).
* Wall-clock timestamps (Date.now / ISO date strings in the source) are Nat
  milliseconds since the epoch.
* Every ws.send call is collected as a (recipient device id, frame) pair, in
  emission order.
-/

/-- One byte of a Buffer. -/
abbrev Byte := Nat

/-- A JavaScript Map with String keys: insertion-ordered association list. -/
abbrev JMap (α : Type) := List (String × α)

/-- Map.prototype.get -/
def mapGet {α : Type} (m : JMap α) (k : String) : Option α :=
  (m.find? (fun p => p.1 == k)).map (fun p => p.2)

/-- Map.prototype.has -/
def mapHas {α : Type} (m : JMap α) (k : String) : Bool :=
  m.any (fun p => p.1 == k)

/-- Map.prototype.set: update in place when the key exists, append otherwise. -/
def mapSet {α : Type} (m : JMap α) (k : String) (v : α) : JMap α :=
  if mapHas m k then m.map (fun p => if p.1 == k then (k, v) else p)
  else m ++ [(k, v)]

/-- Map.prototype.delete (the removal itself; the returned Bool is unused). -/
def mapDelete {α : Type} (m : JMap α) (k : String) : JMap α :=
  m.filter (fun p => p.1 != k)

/-- A connected device as stored in session.devices.
    wsOpen models ws.readyState === WebSocket.OPEN. -/
structure Device where
  id : String
  wsOpen : Bool
  name : String
  dtype : String
  connectedAt : Nat
  deriving Repr, DecidableEq

/-- A file buffered in session.files.  data is undefined (none) until
    file_complete assigns the concatenated buffer. -/
structure JFile where
  id : String
  originalName : String
  size : Nat
  mimetype : String
  uploadedAt : Nat
  chunks : List (List Byte)
  receivedSize : Nat
  uploaderId : String
  data : Option (List Byte)
  deriving Repr, DecidableEq

/-- One entry of the global sessions map. -/
structure Session where
  devices : JMap Device
  files : JMap JFile
  createdAt : Nat
  deriving Repr, DecidableEq

/-- The two global maps: sessions and deviceToSession. -/
structure HubState where
  sessions : JMap Session
  deviceToSession : JMap String
  deriving Repr, DecidableEq

/-- The metadata object sent in existing_files and new_file frames. -/
structure FileMeta where
  id : String
  originalName : String
  size : Nat
  mimetype : String
  uploadedAt : Nat
  deriving Repr, DecidableEq

/-- The metadata projection used by existing_files and new_file. -/
def JFile.meta (f : JFile) : FileMeta :=
  ⟨f.id, f.originalName, f.size, f.mimetype, f.uploadedAt⟩

/-- Frames the hub sends to clients (JSON control frames and binary frames). -/
inductive Frame where
  | sessionCreated (sessionCode deviceId : String) (connectedDevices : Nat)
  | sessionJoined (sessionCode deviceId : String) (connectedDevices : Nat)
  | sessionError (error : String)
  | deviceJoined (id : String) (name dtype : Option String) (totalDevices : Nat)
  | deviceLeft (deviceId : String) (totalDevices : Nat)
  | existingFiles (files : List FileMeta)
  | fileStartAck (fileId fileName : String)
  | uploadProgress (fileId : String) (progress received total : Nat)
  | newFile (file : FileMeta)
  | fileCompleteAck (fileId : String)
  | fileDownloadStart (fileId fileName : String) (fileSize : Nat) (mimeType : String)
  | binaryFrame (bytes : List Byte)
  | fileDownloadComplete (fileId : String)
  | fileRemoved (fileId : String)
  | pong
  deriving Repr, DecidableEq

/-- A ws.send call: recipient device id and the frame sent. -/
abbrev Send := String × Frame

/-- broadcastToSession: look the session up in the global map and send the
    frame to every member whose socket is open, except excludeId. -/
def broadcastToSession (st : HubState) (sessionCode : String) (msg : Frame)
    (excludeId : Option String) : List Send :=
  match mapGet st.sessions sessionCode with
  | none => []
  | some session =>
      session.devices.filterMap (fun p =>
        if (some p.1 != excludeId) && p.2.wsOpen then some (p.1, msg) else none)

/-- The confusion-free session code alphabet (0, O, 1, I removed). -/
def sessionChars : String := "ABCDEFGHJKLMNPQRSTUVWXYZ23456789"

/-- generateSessionCode: six draws of Math.floor(Math.random() * 32), each
    indexing into the alphabet.  One run of Math.random is a function
    Fin 6 → Fin 32 (Math.floor(Math.random() * chars.length) always lands
    in 0..31). -/
def generateSessionCode (r : Fin 6 → Fin 32) : String :=
  String.mk ((List.finRange 6).map (fun i => sessionChars.toList.getD (r i).val 'A'))

/-- The retry loop of create_session: generate, and regenerate while the code
    is already a live key.  The unbounded loop is modelled on a finite stream
    of random draws; none models exhausting the stream (the loop not having
    terminated within that many draws). -/
def freshSessionCode (sessions : JMap Session) : List (Fin 6 → Fin 32) → Option String
  | [] => none
  | r :: rest =>
      let code := generateSessionCode r
      if mapHas sessions code then freshSessionCode sessions rest else some code

/-- handleJsonMessage, case create_session.  deviceId is the uuid minted at
    connection time; wsOpen is the state of the connection socket; draws feeds
    the code generator; now is the wall clock. -/
def createSession (st : HubState) (deviceId : String) (wsOpen : Bool)
    (deviceName deviceType : Option String) (now : Nat)
    (draws : List (Fin 6 → Fin 32)) : Option (HubState × List Send) :=
  match freshSessionCode st.sessions draws with
  | none => none
  | some sessionCode =>
      let dev : Device :=
        ⟨deviceId, wsOpen, deviceName.getD "Unknown Device", deviceType.getD "unknown", now⟩
      let session1 : Session := ⟨mapSet [] deviceId dev, [], now⟩
      let st1 : HubState :=
        ⟨mapSet st.sessions sessionCode session1, mapSet st.deviceToSession deviceId sessionCode⟩
      some (st1,
        [(deviceId, Frame.sessionCreated sessionCode deviceId session1.devices.length)])

/-- String.prototype.toUpperCase, faithful for the ASCII strings session codes
    are made of. -/
def jsToUpperCase (s : String) : String := String.mk (s.toList.map Char.toUpper)

/-- handleJsonMessage, case join_session.  The sessionCode field may be absent
    (message.sessionCode?.toUpperCase(), then Map.get(undefined) misses). -/
def joinSession (st : HubState) (deviceId : String) (wsOpen : Bool)
    (sessionCode? : Option String) (deviceName deviceType : Option String)
    (now : Nat) : HubState × List Send :=
  match sessionCode?.bind
      (fun c => (mapGet st.sessions (jsToUpperCase c)).map (fun s => (jsToUpperCase c, s))) with
  | none =>
      (st, [(deviceId, Frame.sessionError "Session not found. Check the code and try again.")])
  | some (sessionCode, session) =>
      let dev : Device :=
        ⟨deviceId, wsOpen, deviceName.getD "Unknown Device", deviceType.getD "unknown", now⟩
      let session1 : Session := { session with devices := mapSet session.devices deviceId dev }
      let st1 : HubState :=
        ⟨mapSet st.sessions sessionCode session1, mapSet st.deviceToSession deviceId sessionCode⟩
      let joined : Send :=
        (deviceId, Frame.sessionJoined sessionCode deviceId session1.devices.length)
      let bcast := broadcastToSession st1 sessionCode
        (Frame.deviceJoined deviceId deviceName deviceType session1.devices.length)
        (some deviceId)
      let metas := session1.files.map (fun p => (p.2).meta)
      let extra := if metas.length > 0 then [(deviceId, Frame.existingFiles metas)] else []
      (st1, joined :: bcast ++ extra)

/-- handleJsonMessage, case file_start.  fileId is the uuid minted for the
    upload. -/
def fileStart (st : HubState) (deviceId fileId : String)
    (fileName : String) (fileSize : Nat) (mimeType : String) (now : Nat) :
    HubState × List Send :=
  match mapGet st.deviceToSession deviceId with
  | none => (st, [])
  | some sessionCode =>
    match mapGet st.sessions sessionCode with
    | none => (st, [])
    | some session =>
        let f : JFile := ⟨fileId, fileName, fileSize, mimeType, now, [], 0, deviceId, none⟩
        let session1 : Session := { session with files := mapSet session.files fileId f }
        let st1 : HubState := ⟨mapSet st.sessions sessionCode session1, st.deviceToSession⟩
        (st1, [(deviceId, Frame.fileStartAck fileId fileName)])

/-- handleJsonMessage, case file_complete: whenever the file exists, assign
    data := Buffer.concat(chunks), clear the chunk list, broadcast new_file to
    the other members, ack the uploader. -/
def fileComplete (st : HubState) (deviceId fileId : String) : HubState × List Send :=
  match mapGet st.deviceToSession deviceId with
  | none => (st, [])
  | some sessionCode =>
    match mapGet st.sessions sessionCode with
    | none => (st, [])
    | some session =>
      match mapGet session.files fileId with
      | none => (st, [])
      | some file =>
          let file1 : JFile := { file with data := some file.chunks.flatten, chunks := [] }
          let session1 : Session := { session with files := mapSet session.files fileId file1 }
          let st1 : HubState := ⟨mapSet st.sessions sessionCode session1, st.deviceToSession⟩
          (st1, broadcastToSession st1 sessionCode (Frame.newFile file1.meta) (some deviceId)
                  ++ [(deviceId, Frame.fileCompleteAck fileId)])

/-- The download chunk size: 64 KiB. -/
def chunkSize : Nat := 64 * 1024

/-- The download loop of request_file: Math.ceil(len / chunkSize) slices
    data.slice(i * chunkSize, min((i + 1) * chunkSize, len)). -/
def downloadChunks (d : List Byte) : List (List Byte) :=
  (List.range ((d.length + chunkSize - 1) / chunkSize)).map
    (fun i => (d.drop (i * chunkSize)).take chunkSize)

/-- The bytes of an ASCII string (String.prototype byte view; file ids and
    session codes are ASCII, where UTF-8 bytes and code points coincide). -/
def strBytes (s : String) : List Byte := s.toList.map Char.toNat

/-- Buffer.alloc(36) followed by header.write(id): the id bytes, truncated at
    36, and the remaining allocated bytes left as zero. -/
def idHeader (id : String) : List Byte :=
  ((strBytes id).take 36) ++ List.replicate (36 - (strBytes id).length) 0

/-- handleJsonMessage, case request_file.  A Buffer object is truthy even when
    empty, so the guard requestedFile && requestedFile.data is data being
    defined, not nonempty. -/
def requestFile (st : HubState) (deviceId fileId : String) : HubState × List Send :=
  match mapGet st.deviceToSession deviceId with
  | none => (st, [])
  | some sessionCode =>
    match mapGet st.sessions sessionCode with
    | none => (st, [])
    | some session =>
      match mapGet session.files fileId with
      | none => (st, [])
      | some file =>
        match file.data with
        | none => (st, [])
        | some d =>
            (st,
              (deviceId, Frame.fileDownloadStart file.id file.originalName file.size file.mimetype)
                :: (downloadChunks d).map
                    (fun c => (deviceId, Frame.binaryFrame (idHeader file.id ++ c)))
                ++ [(deviceId, Frame.fileDownloadComplete file.id)])

/-- handleJsonMessage, case delete_file: remove when present and broadcast
    file_removed with no exclusion. -/
def deleteFile (st : HubState) (deviceId fileId : String) : HubState × List Send :=
  match mapGet st.deviceToSession deviceId with
  | none => (st, [])
  | some sessionCode =>
    match mapGet st.sessions sessionCode with
    | none => (st, [])
    | some session =>
      if mapHas session.files fileId then
        let session1 : Session := { session with files := mapDelete session.files fileId }
        let st1 : HubState := ⟨mapSet st.sessions sessionCode session1, st.deviceToSession⟩
        (st1, broadcastToSession st1 sessionCode (Frame.fileRemoved fileId) none)
      else (st, [])

/-- Math.round((received / size) * 100), as the exact rational rounding
    floor(received * 100 / size + 1 / 2).  size = 0 (NaN in the source) is
    mapped to 0; no property below inspects the progress number. -/
def jsRoundPct (received size : Nat) : Nat :=
  if size = 0 then 0 else (received * 100 * 2 + size) / (size * 2)

/-- Buffer.prototype.toString of ASCII bytes (the file ids and space padding
    the properties below concern; for bytes below 128, UTF-8 decoding is the
    identity on code points). -/
def bytesToString (bs : List Byte) : String := String.mk (bs.map Char.ofNat)

/-- handleBinaryMessage: the first 36 bytes, decoded verbatim, are the lookup
    key; when a file matches, the remaining bytes are appended as a chunk and
    upload_progress is sent to the uploader. -/
def handleBinaryMessage (st : HubState) (deviceId : String) (data : List Byte) :
    HubState × List Send :=
  match mapGet st.deviceToSession deviceId with
  | none => (st, [])
  | some sessionCode =>
    match mapGet st.sessions sessionCode with
    | none => (st, [])
    | some session =>
      let fileId := bytesToString (data.take 36)
      let chunk := data.drop 36
      match mapGet session.files fileId with
      | none => (st, [])
      | some file =>
          let file1 : JFile := { file with
            chunks := file.chunks ++ [chunk],
            receivedSize := file.receivedSize + chunk.length }
          let session1 : Session := { session with files := mapSet session.files fileId file1 }
          let st1 : HubState := ⟨mapSet st.sessions sessionCode session1, st.deviceToSession⟩
          (st1, [(deviceId,
            Frame.uploadProgress fileId (jsRoundPct file1.receivedSize file.size)
              file1.receivedSize file.size)])

/-- FILE_TTL: 30 minutes in milliseconds. -/
def FILE_TTL : Nat := 30 * 60 * 1000

/-- One janitor pass over a single session: drop every file whose uploadedAt
    is before the cutoff, and for each dropped file broadcast file_removed to
    every open member (no exclusion), in map order. -/
def sweepSession (s : Session) (cutoff : Nat) : Session × List Send :=
  let removed := s.files.filter (fun p => p.2.uploadedAt < cutoff)
  let kept := s.files.filter (fun p => !(p.2.uploadedAt < cutoff : Bool))
  ({ s with files := kept },
    removed.flatMap (fun p =>
      s.devices.filterMap (fun q =>
        if q.2.wsOpen then some (q.1, Frame.fileRemoved p.1) else none)))

/-- The janitor tick (setInterval body): sweep the files of every session,
    then drop every session that is empty and older than the cutoff.  In Nat,
    now - FILE_TTL truncates at zero exactly where the JS cutoff is negative
    and no Nat timestamp is below either. -/
def janitorTick (st : HubState) (now : Nat) : HubState × List Send :=
  let cutoff := now - FILE_TTL
  let swept := st.sessions.map (fun p => (p.1, sweepSession p.2 cutoff))
  (⟨(swept.map (fun q => (q.1, q.2.1))).filter
      (fun p => !((p.2.devices.length == 0) && (p.2.createdAt < cutoff : Bool))),
    st.deviceToSession⟩,
   (swept.map (fun q => q.2.2)).flatten)

/-! ### Association-list (JS Map) lemmas -/

theorem mapGet_cons {α : Type} (a : String × α) (t : JMap α) (k : String) :
    mapGet (a :: t) k = if a.1 == k then some a.2 else mapGet t k := by
  by_cases h : (a.1 == k) = true
  · simp [mapGet, List.find?_cons_of_pos, h]
  · simp only [Bool.not_eq_true] at h
    simp [mapGet, List.find?_cons_of_neg, h]

theorem mapHas_cons {α : Type} (a : String × α) (t : JMap α) (k : String) :
    mapHas (a :: t) k = ((a.1 == k) || mapHas t k) := by
  simp [mapHas]

theorem mapGet_map_update {α : Type} (m : JMap α) (k : String) (v : α)
    (h : mapHas m k = true) :
    mapGet (m.map (fun p => if p.1 == k then (k, v) else p)) k = some v := by
  induction m with
  | nil => simp [mapHas] at h
  | cons a t ih =>
    by_cases hk : a.1 = k
    · simp [List.map_cons, mapGet_cons, hk]
    · have hk' : (a.1 == k) = false := by simpa using hk
      have ht : mapHas t k = true := by
        rw [mapHas_cons, hk', Bool.false_or] at h
        exact h
      simpa [List.map_cons, mapGet_cons, hk, hk'] using ih ht

theorem mapGet_append_new {α : Type} (m : JMap α) (k : String) (v : α)
    (h : mapHas m k = false) :
    mapGet (m ++ [(k, v)]) k = some v := by
  induction m with
  | nil => simp [mapGet_cons]
  | cons a t ih =>
    rw [mapHas_cons, Bool.or_eq_false_iff] at h
    rw [List.cons_append, mapGet_cons, h.1]
    exact ih h.2

theorem mapGet_mapSet_self {α : Type} (m : JMap α) (k : String) (v : α) :
    mapGet (mapSet m k v) k = some v := by
  unfold mapSet
  by_cases h : mapHas m k
  · rw [if_pos h]; exact mapGet_map_update m k v h
  · rw [if_neg h]
    exact mapGet_append_new m k v (Bool.not_eq_true _ ▸ h)

theorem mapGet_mapDelete_self {α : Type} (m : JMap α) (k : String) :
    mapGet (mapDelete m k) k = none := by
  induction m with
  | nil => rfl
  | cons a t ih =>
    by_cases hk : a.1 = k
    · simpa [mapDelete, List.filter_cons, hk] using ih
    · have hk' : (a.1 != k) = true := by simpa using hk
      simpa [mapDelete, List.filter_cons, hk', mapGet_cons, hk] using ih

theorem mapGet_none_of_all_ne {α : Type} (m : JMap α) (k : String)
    (h : ∀ p ∈ m, p.1 ≠ k) : mapGet m k = none := by
  induction m with
  | nil => rfl
  | cons a t ih =>
    have ha : (a.1 == k) = false := by
      simpa using h a (List.mem_cons_self a t)
    rw [mapGet_cons, ha]
    simpa using ih (fun p hp => h p (List.mem_cons_of_mem _ hp))

theorem mapGet_mem {α : Type} {m : JMap α} {k : String} {v : α}
    (h : mapGet m k = some v) : (k, v) ∈ m := by
  unfold mapGet at h
  cases hf : m.find? (fun p => p.1 == k) with
  | none => rw [hf] at h; simp at h
  | some p =>
    rw [hf] at h
    simp at h
    have hm := List.mem_of_find?_eq_some hf
    have hp := List.find?_some hf
    have hk : p.1 = k := by simpa using hp
    have : p = (k, v) := by
      cases p with
      | mk p1 p2 => simp at hk h; rw [hk, h]
    rw [← this]; exact hm

theorem mapHas_false_of_not_mem {α : Type} (m : JMap α) (k : String)
    (h : k ∉ m.map (fun p => p.1)) : mapHas m k = false := by
  rw [mapHas, List.any_eq_false]
  intro p hp hk
  exact h (List.mem_map.mpr ⟨p, hp, by simpa using hk⟩)

theorem not_mem_keys_of_mapHas_false {α : Type} (m : JMap α) (k : String)
    (h : mapHas m k = false) : k ∉ m.map (fun p => p.1) := by
  intro hk
  rcases List.mem_map.mp hk with ⟨p, hp, hpk⟩
  rw [mapHas, List.any_eq_false] at h
  exact absurd (by simpa using hpk) (by simpa using h p hp)

theorem keys_mapSet_of_has {α : Type} (m : JMap α) (k : String) (v : α)
    (h : mapHas m k = true) :
    (mapSet m k v).map (fun p => p.1) = m.map (fun p => p.1) := by
  unfold mapSet
  rw [if_pos h, List.map_map]
  apply List.map_congr_left
  intro p _
  by_cases hk : p.1 = k
  · simp [hk]
  · simp [hk]

theorem keys_mapSet_of_not_has {α : Type} (m : JMap α) (k : String) (v : α)
    (h : mapHas m k = false) :
    (mapSet m k v).map (fun p => p.1) = m.map (fun p => p.1) ++ [k] := by
  unfold mapSet
  rw [if_neg (by simp [h])]
  simp

/-! ### String and byte lemmas -/

theorem strBytes_length (s : String) : (strBytes s).length = s.length := by
  rw [strBytes, List.length_map]
  rfl

theorem bytesToString_strBytes (s : String) : bytesToString (strBytes s) = s := by
  simp [bytesToString, strBytes, List.map_map, Function.comp_def, Char.ofNat_toNat]

theorem idHeader_length (id : String) : (idHeader id).length = 36 := by
  simp [idHeader]
  omega

/-! ### Concrete fixtures for counterexamples and witnesses -/

/-- A 36-character uuid-shaped file id. -/
def exFid : String := "aaaaaaaa-bbbb-cccc-dddd-eeeeeeeeeeee"

/-- A connected device with an open socket. -/
def exDevOpen (i : String) : Device := ⟨i, true, "Mac", "mac", 0⟩

/-- A two-member session ABCDEF holding the given files. -/
def exSt (files : JMap JFile) : HubState :=
  ⟨[("ABCDEF", ⟨[("d1", exDevOpen "d1"), ("d2", exDevOpen "d2")], files, 0⟩)],
   [("d1", "ABCDEF"), ("d2", "ABCDEF")]⟩

/-- An upload that declared 10 bytes but has received only 5. -/
def mismatchFile : JFile :=
  ⟨exFid, "hi.txt", 10, "text/plain", 0, [[1, 2, 3, 4, 5]], 5, "d1", none⟩

/-! ### C1 -/

/-- C1 (counterexample): file_complete on a file with receivedSize 5 but declared
    size 10 does NOT leave the file Open and does NOT withhold the ack: it stores a
    5-byte buffer (length differing from the declared size 10), broadcasts new_file,
    and sends file_complete_ack, so the claimed receivedSize == size validation does
    not exist in the code. -/
theorem c1_counterexample :
    (fileComplete (exSt [(exFid, mismatchFile)]) "d1" exFid).2 =
      [("d2", Frame.newFile ⟨exFid, "hi.txt", 10, "text/plain", 0⟩),
       ("d1", Frame.fileCompleteAck exFid)] ∧
    ((mapGet (fileComplete (exSt [(exFid, mismatchFile)]) "d1" exFid).1.sessions
        "ABCDEF").bind (fun s => mapGet s.files exFid)).map
      (fun f => ((f.data.getD []).length, f.size)) = some (5, 10) :=
  ⟨rfl, rfl⟩

/-- C1 (amended): file_complete performs no size validation: whenever the file
    exists, the hub stores data := concatenation of the received chunks (so the
    stored buffer length is whatever arrived, not necessarily the declared size),
    clears the chunk list, and the uploader always receives file_complete_ack as
    the final frame. -/
theorem c1_complete_unvalidated (st : HubState) (dev sc fid : String)
    (session : Session) (file : JFile)
    (h1 : mapGet st.deviceToSession dev = some sc)
    (h2 : mapGet st.sessions sc = some session)
    (h3 : mapGet session.files fid = some file) :
    ((mapGet (fileComplete st dev fid).1.sessions sc).bind (fun s => mapGet s.files fid)) =
      some { file with data := some file.chunks.flatten, chunks := [] } ∧
    (fileComplete st dev fid).2.getLast? = some (dev, Frame.fileCompleteAck fid) := by
  constructor
  · simp [fileComplete, h1, h2, h3, mapGet_mapSet_self]
  · simp [fileComplete, h1, h2, h3, List.getLast?_concat]

/-- Witness for c1_complete_unvalidated at the mismatch fixture. -/
theorem c1_complete_unvalidated_witness :
    ((mapGet (fileComplete (exSt [(exFid, mismatchFile)]) "d1" exFid).1.sessions
        "ABCDEF").bind (fun s => mapGet s.files exFid)) =
      some { mismatchFile with data := some mismatchFile.chunks.flatten, chunks := [] } ∧
    (fileComplete (exSt [(exFid, mismatchFile)]) "d1" exFid).2.getLast? =
      some ("d1", Frame.fileCompleteAck exFid) :=
  c1_complete_unvalidated (exSt [(exFid, mismatchFile)]) "d1" "ABCDEF" exFid
    ⟨[("d1", exDevOpen "d1"), ("d2", exDevOpen "d2")], [(exFid, mismatchFile)], 0⟩
    mismatchFile rfl rfl rfl

/-! ### C2 -/

/-- An upload that declared 3 bytes and has received none yet. -/
def oversizeFile : JFile := ⟨exFid, "hi.txt", 3, "text/plain", 0, [], 0, "d1", none⟩

/-- C2 (counterexample): a 5-byte chunk arriving for an Open file with declared size
    3 is NOT dropped: it is stored, and receivedSize becomes 5 > 3, violating the
    claimed receivedSize ≤ size in-flight invariant. -/
theorem c2_counterexample :
    ((mapGet (handleBinaryMessage (exSt [(exFid, oversizeFile)]) "d1"
          (strBytes exFid ++ [1, 2, 3, 4, 5])).1.sessions "ABCDEF").bind
        (fun s => mapGet s.files exFid)).map
      (fun f => (f.chunks, f.receivedSize, f.size)) =
      some ([[1, 2, 3, 4, 5]], 5, 3) :=
  rfl

/-- C2 (amended): the hub never drops an inbound chunk: whenever the 36-byte prefix
    matches a stored file, the chunk is appended unconditionally and receivedSize
    grows by the chunk length with no comparison against the declared size (so it can
    exceed it); upload_progress to the uploader is the only reply. -/
theorem c2_append_unchecked (st : HubState) (dev sc : String) (session : Session)
    (file : JFile) (data : List Byte)
    (h1 : mapGet st.deviceToSession dev = some sc)
    (h2 : mapGet st.sessions sc = some session)
    (h3 : mapGet session.files (bytesToString (data.take 36)) = some file) :
    ((mapGet (handleBinaryMessage st dev data).1.sessions sc).bind
        (fun s => mapGet s.files (bytesToString (data.take 36)))) =
      some { file with chunks := file.chunks ++ [data.drop 36],
                       receivedSize := file.receivedSize + (data.drop 36).length } ∧
    (handleBinaryMessage st dev data).2 =
      [(dev, Frame.uploadProgress (bytesToString (data.take 36))
          (jsRoundPct (file.receivedSize + (data.drop 36).length) file.size)
          (file.receivedSize + (data.drop 36).length) file.size)] := by
  constructor
  · simp [handleBinaryMessage, h1, h2, h3, mapGet_mapSet_self]
  · simp [handleBinaryMessage, h1, h2, h3]

/-- Witness for c2_append_unchecked at the oversize fixture. -/
theorem c2_append_unchecked_witness :
    ((mapGet (handleBinaryMessage (exSt [(exFid, oversizeFile)]) "d1"
          (strBytes exFid ++ [1, 2, 3, 4, 5])).1.sessions "ABCDEF").bind
        (fun s => mapGet s.files
          (bytesToString (((strBytes exFid ++ [1, 2, 3, 4, 5])).take 36)))) =
      some { oversizeFile with
        chunks := oversizeFile.chunks ++ [(strBytes exFid ++ [1, 2, 3, 4, 5]).drop 36],
        receivedSize := oversizeFile.receivedSize
          + ((strBytes exFid ++ [1, 2, 3, 4, 5]).drop 36).length } ∧
    (handleBinaryMessage (exSt [(exFid, oversizeFile)]) "d1"
        (strBytes exFid ++ [1, 2, 3, 4, 5])).2 =
      [("d1", Frame.uploadProgress
          (bytesToString ((strBytes exFid ++ [1, 2, 3, 4, 5]).take 36))
          (jsRoundPct (oversizeFile.receivedSize
            + ((strBytes exFid ++ [1, 2, 3, 4, 5]).drop 36).length) oversizeFile.size)
          (oversizeFile.receivedSize
            + ((strBytes exFid ++ [1, 2, 3, 4, 5]).drop 36).length) oversizeFile.size)] := by
  have h := c2_append_unchecked (exSt [(exFid, oversizeFile)]) "d1" "ABCDEF"
    ⟨[("d1", exDevOpen "d1"), ("d2", exDevOpen "d2")], [(exFid, oversizeFile)], 0⟩
    oversizeFile (strBytes exFid ++ [1, 2, 3, 4, 5]) rfl rfl (by decide)
  simpa using h

/-! ### C4 -/

/-- A file already in the Complete state: chunk list cleared, data assigned. -/
def completedFile : JFile :=
  ⟨exFid, "hi.txt", 5, "text/plain", 0, [], 5, "d1", some [104, 101, 108, 108, 111]⟩

/-- C4: a second file_complete for an already Complete file (its chunk list is
    empty) re-concatenates the empty list: the stored buffer is replaced by the empty
    buffer of length 0, every other open member receives a second new_file broadcast,
    and the sender a second file_complete_ack. -/
theorem c4_double_complete (st : HubState) (dev sc fid : String) (session : Session)
    (file : JFile) (d0 : List Byte)
    (h1 : mapGet st.deviceToSession dev = some sc)
    (h2 : mapGet st.sessions sc = some session)
    (h3 : mapGet session.files fid = some file)
    (hc : file.chunks = []) (hd : file.data = some d0) :
    ((mapGet (fileComplete st dev fid).1.sessions sc).bind (fun s => mapGet s.files fid)) =
      some { file with data := some [] } ∧
    (fileComplete st dev fid).2 =
      session.devices.filterMap (fun p =>
        if (some p.1 != some dev) && p.2.wsOpen
        then some (p.1, Frame.newFile file.meta) else none)
      ++ [(dev, Frame.fileCompleteAck fid)] := by
  constructor
  · simp [fileComplete, h1, h2, h3, hc, mapGet_mapSet_self]
  · simp [fileComplete, broadcastToSession, h1, h2, h3, hc, mapGet_mapSet_self, JFile.meta]

/-- Witness for c4_double_complete: completing the completed fixture file again. -/
theorem c4_double_complete_witness :
    ((mapGet (fileComplete (exSt [(exFid, completedFile)]) "d1" exFid).1.sessions
        "ABCDEF").bind (fun s => mapGet s.files exFid)) =
      some { completedFile with data := some [] } ∧
    (fileComplete (exSt [(exFid, completedFile)]) "d1" exFid).2 =
      [("d1", exDevOpen "d1"), ("d2", exDevOpen "d2")].filterMap (fun p =>
        if (some p.1 != some "d1") && p.2.wsOpen
        then some (p.1, Frame.newFile completedFile.meta) else none)
      ++ [("d1", Frame.fileCompleteAck exFid)] :=
  c4_double_complete (exSt [(exFid, completedFile)]) "d1" "ABCDEF" exFid
    ⟨[("d1", exDevOpen "d1"), ("d2", exDevOpen "d2")], [(exFid, completedFile)], 0⟩
    completedFile [104, 101, 108, 108, 111] rfl rfl rfl rfl rfl

/-! ### C5 -/

/-- A file stored under a 3-character id (shorter than the 36-byte frame slot). -/
def shortIdFile : JFile := ⟨"abc", "hi.txt", 5, "text/plain", 0, [], 0, "d1", none⟩

/-- C5 (counterexample): a data frame whose first 36 bytes are the 3-character file
    id "abc" right-padded with 33 space bytes (0x20) is NOT matched to the stored
    file "abc": the hub never strips the padding, so the lookup misses, the chunk is
    dropped, no progress frame is sent and the state is unchanged — the claimed
    stripping does not exist in the code. -/
theorem c5_counterexample :
    handleBinaryMessage (exSt [("abc", shortIdFile)]) "d1"
        (strBytes "abc" ++ List.replicate 33 32 ++ [9, 9]) =
      (exSt [("abc", shortIdFile)], []) := by
  decide

/-- C5 (amended): the receiver does not strip trailing spaces: the decoded 36-byte
    prefix is used verbatim as the lookup key, so a data frame matches a stored file
    exactly when its first 36 bytes equal the file id (hub-minted ids are exactly 36
    characters, and then the bytes after the prefix are appended as a chunk); a
    shorter id padded with spaces never matches. -/
theorem c5_exact_match (st : HubState) (dev sc fid : String) (session : Session)
    (file : JFile) (chunk : List Byte)
    (h1 : mapGet st.deviceToSession dev = some sc)
    (h2 : mapGet st.sessions sc = some session)
    (hlen : fid.length = 36)
    (h3 : mapGet session.files fid = some file) :
    ((mapGet (handleBinaryMessage st dev (strBytes fid ++ chunk)).1.sessions sc).bind
        (fun s => mapGet s.files fid)) =
      some { file with chunks := file.chunks ++ [chunk],
                       receivedSize := file.receivedSize + chunk.length } := by
  have hl : (strBytes fid).length = 36 := by rw [strBytes_length, hlen]
  have htake : (strBytes fid ++ chunk).take 36 = strBytes fid := by
    rw [← hl]; exact List.take_left _ _
  have hdrop : (strBytes fid ++ chunk).drop 36 = chunk := by
    rw [← hl]; exact List.drop_left _ _
  simp [handleBinaryMessage, h1, h2, htake, hdrop, bytesToString_strBytes, h3,
    mapGet_mapSet_self]

/-- Witness for c5_exact_match: an exactly-36-character id frame is matched. -/
theorem c5_exact_match_witness :
    ((mapGet (handleBinaryMessage (exSt [(exFid, oversizeFile)]) "d1"
          (strBytes exFid ++ [7, 8])).1.sessions "ABCDEF").bind
        (fun s => mapGet s.files exFid)) =
      some { oversizeFile with chunks := oversizeFile.chunks ++ [[7, 8]],
                               receivedSize := oversizeFile.receivedSize + [7, 8].length } :=
  c5_exact_match (exSt [(exFid, oversizeFile)]) "d1" "ABCDEF" exFid
    ⟨[("d1", exDevOpen "d1"), ("d2", exDevOpen "d2")], [(exFid, oversizeFile)], 0⟩
    oversizeFile [7, 8] rfl rfl rfl rfl

/-! ### C6 -/

/-- C6: a join_session whose uppercased code matches no live session gets exactly one
    session_error reply and the hub state is returned untouched (no session, file or
    device→session index change, so the device stays unregistered); the connection is
    not closed by this path. -/
theorem c6_join_unknown_session (st : HubState) (deviceId : String) (wsOpen : Bool)
    (code : String) (dn dt : Option String) (now : Nat)
    (h : mapGet st.sessions (jsToUpperCase code) = none) :
    joinSession st deviceId wsOpen (some code) dn dt now =
      (st, [(deviceId,
        Frame.sessionError "Session not found. Check the code and try again.")]) := by
  simp [joinSession, h]

/-- Witness for c6_join_unknown_session: joining ZZZZZZ when only ABCDEF is live. -/
theorem c6_join_unknown_session_witness :
    joinSession (exSt []) "d9" true (some "ZZZZZZ") (some "iPhone") (some "iphone") 7 =
      (exSt [], [("d9",
        Frame.sessionError "Session not found. Check the code and try again.")]) :=
  c6_join_unknown_session (exSt []) "d9" true "ZZZZZZ" (some "iPhone") (some "iphone") 7
    (by decide)

/-! ### C9 -/

/-- C9: after delete_file removes fid from the session, a request_file for fid from
    any device of the session produces no frames at all — no file_download_start, no
    binary frames, no file_download_complete — and leaves the state unchanged. -/
theorem c9_delete_then_request (st : HubState) (dev dev2 sc fid : String)
    (session : Session)
    (h1 : mapGet st.deviceToSession dev = some sc)
    (h2 : mapGet st.sessions sc = some session)
    (hhas : mapHas session.files fid = true)
    (h4 : mapGet st.deviceToSession dev2 = some sc) :
    requestFile (deleteFile st dev fid).1 dev2 fid = ((deleteFile st dev fid).1, []) := by
  have hst : (deleteFile st dev fid).1 =
      ⟨mapSet st.sessions sc { session with files := mapDelete session.files fid },
        st.deviceToSession⟩ := by
    simp [deleteFile, h1, h2, hhas]
  rw [hst]
  simp [requestFile, h4, mapGet_mapSet_self, mapGet_mapDelete_self]

/-- Witness for c9_delete_then_request at the completed fixture. -/
theorem c9_delete_then_request_witness :
    requestFile (deleteFile (exSt [(exFid, completedFile)]) "d1" exFid).1 "d2" exFid =
      ((deleteFile (exSt [(exFid, completedFile)]) "d1" exFid).1, []) :=
  c9_delete_then_request (exSt [(exFid, completedFile)]) "d1" "d2" "ABCDEF" exFid
    ⟨[("d1", exDevOpen "d1"), ("d2", exDevOpen "d2")], [(exFid, completedFile)], 0⟩
    rfl rfl rfl rfl

/-! ### C10 -/

/-- The Device record the join and create handlers register
    (name and type defaulted as in the source). -/
def mkDevice (deviceId : String) (wsOpen : Bool) (dn dt : Option String) (now : Nat) :
    Device :=
  ⟨deviceId, wsOpen, dn.getD "Unknown Device", dt.getD "unknown", now⟩

/-- C10: join_session uppercases the supplied code before lookup, so any case
    variant v of a live code (jsToUpperCase v matching it) joins that session: the
    device is inserted into its member map, the index maps the device to the
    canonical code, and the first reply is session_joined for it. -/
theorem c10_join_case_insensitive (st : HubState) (deviceId : String) (wsOpen : Bool)
    (v : String) (dn dt : Option String) (now : Nat) (session : Session)
    (h : mapGet st.sessions (jsToUpperCase v) = some session) :
    mapGet (joinSession st deviceId wsOpen (some v) dn dt now).1.sessions
        (jsToUpperCase v) =
      some { session with
        devices := mapSet session.devices deviceId (mkDevice deviceId wsOpen dn dt now) } ∧
    mapGet (joinSession st deviceId wsOpen (some v) dn dt now).1.deviceToSession
        deviceId = some (jsToUpperCase v) ∧
    (joinSession st deviceId wsOpen (some v) dn dt now).2.head? =
      some (deviceId, Frame.sessionJoined (jsToUpperCase v) deviceId
        (mapSet session.devices deviceId (mkDevice deviceId wsOpen dn dt now)).length) := by
  refine ⟨?_, ?_, ?_⟩ <;> simp [joinSession, mkDevice, h, mapGet_mapSet_self]

/-- Witness for c10_join_case_insensitive: joining ABCDEF with the lowercased code
    abcdef. -/
theorem c10_join_case_insensitive_witness :
    mapGet (joinSession (exSt []) "d9" true (some "abcdef") (some "iPhone")
        (some "iphone") 7).1.sessions (jsToUpperCase "abcdef") =
      some { (⟨[("d1", exDevOpen "d1"), ("d2", exDevOpen "d2")], [], 0⟩ : Session) with
        devices := mapSet [("d1", exDevOpen "d1"), ("d2", exDevOpen "d2")] "d9"
          (mkDevice "d9" true (some "iPhone") (some "iphone") 7) } ∧
    mapGet (joinSession (exSt []) "d9" true (some "abcdef") (some "iPhone")
        (some "iphone") 7).1.deviceToSession "d9" = some (jsToUpperCase "abcdef") ∧
    (joinSession (exSt []) "d9" true (some "abcdef") (some "iPhone")
        (some "iphone") 7).2.head? =
      some ("d9", Frame.sessionJoined (jsToUpperCase "abcdef") "d9"
        (mapSet [("d1", exDevOpen "d1"), ("d2", exDevOpen "d2")] "d9"
          (mkDevice "d9" true (some "iPhone") (some "iphone") 7)).length) :=
  c10_join_case_insensitive (exSt []) "d9" true "abcdef" (some "iPhone")
    (some "iphone") 7 ⟨[("d1", exDevOpen "d1"), ("d2", exDevOpen "d2")], [], 0⟩
    (by decide)

/-! ### C8 -/

theorem freshSessionCode_spec (m : JMap Session) (draws : List (Fin 6 → Fin 32))
    (c : String) (h : freshSessionCode m draws = some c) :
    mapHas m c = false ∧ ∃ r ∈ draws, c = generateSessionCode r := by
  induction draws with
  | nil => simp [freshSessionCode] at h
  | cons r rest ih =>
    rw [freshSessionCode] at h
    by_cases hc : mapHas m (generateSessionCode r) = true
    · rw [if_pos hc] at h
      rcases ih h with ⟨h1, r', hr', hc'⟩
      exact ⟨h1, r', List.mem_cons_of_mem _ hr', hc'⟩
    · rw [if_neg hc] at h
      injection h with h'
      subst h'
      exact ⟨Bool.not_eq_true _ ▸ hc, r, List.mem_cons_self _ _, rfl⟩

theorem generateSessionCode_length (r : Fin 6 → Fin 32) :
    (generateSessionCode r).length = 6 := by
  rw [generateSessionCode]
  show (List.map _ (List.finRange 6)).length = 6
  rw [List.length_map]
  rfl

theorem generateSessionCode_chars (r : Fin 6 → Fin 32) :
    ∀ ch ∈ (generateSessionCode r).toList, ch ∈ sessionChars.toList := by
  have hall : ∀ i : Fin 32, sessionChars.toList.getD i.val 'A' ∈ sessionChars.toList := by
    decide
  intro ch hch
  have : ch ∈ (List.finRange 6).map (fun i => sessionChars.toList.getD (r i).val 'A') := hch
  rcases List.mem_map.mp this with ⟨i, _, hi⟩
  rw [← hi]
  exact hall (r i)

/-- C8: no two live sessions share a code.  A successful create_session draws a code
    of six characters from the 32-symbol alphabet, retrying until the minted code is
    not a live key, so the code it registers was absent beforehand and a
    duplicate-free key set stays duplicate-free. -/
theorem c8_session_code_unique (st : HubState) (deviceId : String) (wsOpen : Bool)
    (dn dt : Option String) (now : Nat) (draws : List (Fin 6 → Fin 32))
    (res : HubState × List Send)
    (h : createSession st deviceId wsOpen dn dt now draws = some res)
    (hnodup : (st.sessions.map (fun p => p.1)).Nodup) :
    ∃ code r, r ∈ draws ∧ code = generateSessionCode r ∧
      code.length = 6 ∧ (∀ ch ∈ code.toList, ch ∈ sessionChars.toList) ∧
      mapHas st.sessions code = false ∧
      mapGet res.1.sessions code ≠ none ∧
      (res.1.sessions.map (fun p => p.1)).Nodup := by
  cases hf : freshSessionCode st.sessions draws with
  | none => rw [createSession, hf] at h; exact absurd h (by simp)
  | some code =>
    rw [createSession, hf] at h
    rcases freshSessionCode_spec st.sessions draws code hf with ⟨habs, r, hr, hcode⟩
    refine ⟨code, r, hr, hcode, hcode ▸ generateSessionCode_length r,
      hcode ▸ generateSessionCode_chars r, habs, ?_, ?_⟩
    · have : res.1.sessions = mapSet st.sessions code
          ⟨mapSet [] deviceId (mkDevice deviceId wsOpen dn dt now), [], now⟩ := by
        simp only [Option.some_inj] at h
        rw [← h]
        rfl
      rw [this, mapGet_mapSet_self]
      simp
    · have : res.1.sessions = mapSet st.sessions code
          ⟨mapSet [] deviceId (mkDevice deviceId wsOpen dn dt now), [], now⟩ := by
        simp only [Option.some_inj] at h
        rw [← h]
        rfl
      rw [this, keys_mapSet_of_not_has _ _ _ habs]
      rw [List.nodup_append]
      exact ⟨hnodup, List.nodup_singleton _,
        fun a ha hb => (List.mem_singleton.mp hb ▸ not_mem_keys_of_mapHas_false _ _ habs) ha⟩

/-- Witness for c8_session_code_unique: creating a session over the live ABCDEF
    session with a constant-zero draw stream. -/
theorem c8_session_code_unique_witness :
    ∃ code r, r ∈ ([fun _ => (0 : Fin 32)] : List (Fin 6 → Fin 32)) ∧
      code = generateSessionCode r ∧
      code.length = 6 ∧ (∀ ch ∈ code.toList, ch ∈ sessionChars.toList) ∧
      mapHas (exSt []).sessions code = false ∧
      mapGet ((createSession (exSt []) "d9" true none none 5
          [fun _ => (0 : Fin 32)]).getD (exSt [], [])).1.sessions code ≠ none ∧
      (((createSession (exSt []) "d9" true none none 5
          [fun _ => (0 : Fin 32)]).getD (exSt [], [])).1.sessions.map
        (fun p => p.1)).Nodup :=
  c8_session_code_unique (exSt []) "d9" true none none 5 [fun _ => (0 : Fin 32)]
    ((createSession (exSt []) "d9" true none none 5 [fun _ => (0 : Fin 32)]).getD
      (exSt [], []))
    rfl (by decide)

/-! ### C3 -/

/-- An uploader sending a list of chunks: one binary frame per chunk, each framed as
    the 36 id bytes followed by the chunk bytes; the hub state after the sequence. -/
def uploadChunks (st : HubState) (dev fid : String) (cs : List (List Byte)) : HubState :=
  cs.foldl (fun s c => (handleBinaryMessage s dev (strBytes fid ++ c)).1) st

/-- The file record after handleBinaryMessage ingests one chunk. -/
def appendChunk (file : JFile) (c : List Byte) : JFile :=
  { file with chunks := file.chunks ++ [c], receivedSize := file.receivedSize + c.length }

/-- The file record after ingesting a whole chunk list. -/
def appendChunks (file : JFile) (cs : List (List Byte)) : JFile :=
  { file with chunks := file.chunks ++ cs,
              receivedSize := file.receivedSize + (cs.map List.length).sum }

theorem appendChunk_appendChunks (file : JFile) (c : List Byte) (cs : List (List Byte)) :
    appendChunks (appendChunk file c) cs = appendChunks file (c :: cs) := by
  simp [appendChunk, appendChunks, List.append_assoc]
  omega

theorem uploadChunks_spec (cs : List (List Byte)) (st : HubState) (dev sc fid : String)
    (session : Session) (file : JFile)
    (h1 : mapGet st.deviceToSession dev = some sc)
    (h2 : mapGet st.sessions sc = some session)
    (h3 : mapGet session.files fid = some file)
    (hlen : fid.length = 36) :
    ∃ session2,
      mapGet (uploadChunks st dev fid cs).sessions sc = some session2 ∧
      mapGet session2.files fid = some (appendChunks file cs) ∧
      (uploadChunks st dev fid cs).deviceToSession = st.deviceToSession := by
  induction cs generalizing st session file with
  | nil =>
    refine ⟨session, h2, ?_, rfl⟩
    simpa [appendChunks] using h3
  | cons c rest ih =>
    have hl : (strBytes fid).length = 36 := by rw [strBytes_length, hlen]
    have htake : (strBytes fid ++ c).take 36 = strBytes fid := by
      rw [← hl]; exact List.take_left _ _
    have hdrop : (strBytes fid ++ c).drop 36 = c := by
      rw [← hl]; exact List.drop_left _ _
    have hstep : (handleBinaryMessage st dev (strBytes fid ++ c)).1 =
        ⟨mapSet st.sessions sc
            ({ session with files := mapSet session.files fid (appendChunk file c) }),
          st.deviceToSession⟩ := by
      simp [handleBinaryMessage, h1, h2, htake, hdrop, bytesToString_strBytes, h3,
        appendChunk]
    have h1' : mapGet ((handleBinaryMessage st dev (strBytes fid ++ c)).1).deviceToSession
        dev = some sc := by rw [hstep]; exact h1
    have h2' : mapGet ((handleBinaryMessage st dev (strBytes fid ++ c)).1).sessions sc =
        some ({ session with files := mapSet session.files fid (appendChunk file c) }) := by
      rw [hstep]; exact mapGet_mapSet_self _ _ _
    have h3' : mapGet ({ session with
        files := mapSet session.files fid (appendChunk file c) }).files fid =
        some (appendChunk file c) := mapGet_mapSet_self _ _ _
    rcases ih _ _ _ h1' h2' h3' with ⟨session2, hs2, hf2, hidx⟩
    rw [appendChunk_appendChunks] at hf2
    refine ⟨session2, ?_, hf2, ?_⟩
    · rw [uploadChunks, List.foldl_cons]
      exact hs2
    · rw [uploadChunks, List.foldl_cons]
      rw [show (List.foldl (fun s c => (handleBinaryMessage s dev (strBytes fid ++ c)).1)
          (handleBinaryMessage st dev (strBytes fid ++ c)).1 rest) =
          uploadChunks (handleBinaryMessage st dev (strBytes fid ++ c)).1 dev fid rest
        from rfl]
      rw [hidx, hstep]

theorem flatten_chunks_aux (k : Nat) (hk : 0 < k) :
    ∀ (n : Nat) (d : List Byte), d.length ≤ n * k →
      ((List.range n).map (fun i => (d.drop (i * k)).take k)).flatten = d := by
  intro n
  induction n with
  | zero =>
    intro d hd
    have : d = [] := List.eq_nil_of_length_eq_zero (by omega)
    simp [this]
  | succ n ih =>
    intro d hd
    rw [List.range_succ_eq_map, List.map_cons, List.map_map, List.flatten_cons]
    have hcomp : ((fun i => (d.drop (i * k)).take k) ∘ Nat.succ) =
        (fun i => (((d.drop k).drop (i * k)).take k)) := by
      funext i
      show (d.drop (Nat.succ i * k)).take k = ((d.drop k).drop (i * k)).take k
      rw [List.drop_drop, Nat.succ_mul, Nat.add_comm]
    have hmul : (n + 1) * k = n * k + k := by ring
    rw [hcomp, ih (d.drop k) (by rw [List.length_drop]; omega)]
    simpa using List.take_append_drop k d

theorem downloadChunks_flatten (d : List Byte) : (downloadChunks d).flatten = d := by
  rw [downloadChunks]
  apply flatten_chunks_aux chunkSize (by rw [chunkSize]; omega)
  rw [chunkSize]
  show d.length ≤ ((d.length + 65536 - 1) / 65536) * 65536
  omega

theorem downloadChunks_length (d : List Byte) :
    (downloadChunks d).length = (d.length + chunkSize - 1) / chunkSize := by
  simp [downloadChunks]

theorem downloadChunks_le (d : List Byte) :
    ∀ c ∈ downloadChunks d, c.length ≤ chunkSize := by
  intro c hc
  rw [downloadChunks] at hc
  rcases List.mem_map.mp hc with ⟨i, _, hi⟩
  rw [← hi, List.length_take]
  exact Nat.min_le_left _ _

/-- The Open file record the file_start handler creates. -/
def mkOpenFile (fid fn : String) (sz : Nat) (mt : String) (now : Nat) (dev : String) :
    JFile :=
  ⟨fid, fn, sz, mt, now, [], 0, dev, none⟩

/-- A session with its file map replaced (the in-place mutation of the JS object). -/
def withFiles (session : Session) (files : JMap JFile) : Session :=
  { session with files := files }

/-- C3: upload/download round trip.  In any state where uploader dev1 and requester
    dev2 are members of session sc, after file_start mints an Open file with a
    36-character id, the uploader sends its chunk list cs as binary frames and
    completes, a request_file from dev2 leaves the state unchanged and sends dev2
    exactly one file_download_start, then the 64 KiB slices of the stored buffer as
    binary frames — ceil(len / 65536) of them, each a 36-byte id header followed by
    at most 64 KiB of payload, in contiguous order — then one file_download_complete;
    the payloads concatenated in order are exactly the bytes the uploader sent. -/
theorem c3_download_roundtrip (st : HubState) (dev1 dev2 sc fid fn mt : String)
    (sz now : Nat) (cs : List (List Byte)) (session : Session)
    (h1 : mapGet st.deviceToSession dev1 = some sc)
    (h2 : mapGet st.sessions sc = some session)
    (h4 : mapGet st.deviceToSession dev2 = some sc)
    (hlen : fid.length = 36) :
    requestFile (fileComplete (uploadChunks (fileStart st dev1 fid fn sz mt now).1
        dev1 fid cs) dev1 fid).1 dev2 fid =
      ((fileComplete (uploadChunks (fileStart st dev1 fid fn sz mt now).1
          dev1 fid cs) dev1 fid).1,
        (dev2, Frame.fileDownloadStart fid fn sz mt)
          :: (downloadChunks cs.flatten).map
              (fun c => (dev2, Frame.binaryFrame (idHeader fid ++ c)))
          ++ [(dev2, Frame.fileDownloadComplete fid)]) ∧
    (downloadChunks cs.flatten).flatten = cs.flatten ∧
    (downloadChunks cs.flatten).length = (cs.flatten.length + chunkSize - 1) / chunkSize ∧
    (∀ c ∈ downloadChunks cs.flatten, c.length ≤ chunkSize) ∧
    (idHeader fid).length = 36 := by
  have hst1 : (fileStart st dev1 fid fn sz mt now).1 =
      ⟨mapSet st.sessions sc
          (withFiles session (mapSet session.files fid (mkOpenFile fid fn sz mt now dev1))),
        st.deviceToSession⟩ := by
    simp [fileStart, h1, h2, withFiles, mkOpenFile]
  have h1a : mapGet (fileStart st dev1 fid fn sz mt now).1.deviceToSession dev1 =
      some sc := by rw [hst1]; exact h1
  have h2a : mapGet (fileStart st dev1 fid fn sz mt now).1.sessions sc =
      some (withFiles session (mapSet session.files fid (mkOpenFile fid fn sz mt now dev1))) := by
    rw [hst1]; exact mapGet_mapSet_self _ _ _
  have h3a : mapGet (withFiles session
        (mapSet session.files fid (mkOpenFile fid fn sz mt now dev1))).files fid =
      some (mkOpenFile fid fn sz mt now dev1) := mapGet_mapSet_self _ _ _
  rcases uploadChunks_spec cs _ dev1 sc fid _ _ h1a h2a h3a hlen with
    ⟨session2, hs2, hf2, hidx2⟩
  have hfile2 : appendChunks (mkOpenFile fid fn sz mt now dev1) cs =
      (⟨fid, fn, sz, mt, now, cs, (cs.map List.length).sum, dev1, none⟩ : JFile) := by
    simp [appendChunks, mkOpenFile]
  rw [hfile2] at hf2
  have h1b : mapGet (uploadChunks (fileStart st dev1 fid fn sz mt now).1
      dev1 fid cs).deviceToSession dev1 = some sc := by
    rw [hidx2]; exact h1a
  have hst3 : (fileComplete (uploadChunks (fileStart st dev1 fid fn sz mt now).1
      dev1 fid cs) dev1 fid).1 =
      ⟨mapSet (uploadChunks (fileStart st dev1 fid fn sz mt now).1 dev1 fid cs).sessions sc
          (withFiles session2 (mapSet session2.files fid
            (⟨fid, fn, sz, mt, now, [], (cs.map List.length).sum, dev1,
              some cs.flatten⟩ : JFile))),
        (uploadChunks (fileStart st dev1 fid fn sz mt now).1 dev1 fid cs).deviceToSession⟩ := by
    simp [fileComplete, h1b, hs2, hf2, withFiles]
  have h4c : mapGet (fileComplete (uploadChunks (fileStart st dev1 fid fn sz mt now).1
      dev1 fid cs) dev1 fid).1.deviceToSession dev2 = some sc := by
    rw [hst3]
    show mapGet (uploadChunks (fileStart st dev1 fid fn sz mt now).1
      dev1 fid cs).deviceToSession dev2 = some sc
    rw [hidx2, hst1]
    exact h4
  have h2c : mapGet (fileComplete (uploadChunks (fileStart st dev1 fid fn sz mt now).1
      dev1 fid cs) dev1 fid).1.sessions sc =
      some (withFiles session2 (mapSet session2.files fid
        (⟨fid, fn, sz, mt, now, [], (cs.map List.length).sum, dev1,
          some cs.flatten⟩ : JFile))) := by
    rw [hst3]; exact mapGet_mapSet_self _ _ _
  have h3c : mapGet (withFiles session2 (mapSet session2.files fid
      (⟨fid, fn, sz, mt, now, [], (cs.map List.length).sum, dev1,
        some cs.flatten⟩ : JFile))).files fid =
      some (⟨fid, fn, sz, mt, now, [], (cs.map List.length).sum, dev1,
        some cs.flatten⟩ : JFile) := mapGet_mapSet_self _ _ _
  refine ⟨?_, downloadChunks_flatten _, downloadChunks_length _, downloadChunks_le _,
    idHeader_length _⟩
  simp [requestFile, h4c, h2c, h3c]

/-- Witness for c3_download_roundtrip: uploading hello in two chunks and downloading
    it back in the two-member fixture session. -/
theorem c3_download_roundtrip_witness :
    requestFile (fileComplete (uploadChunks (fileStart (exSt []) "d1" exFid "hi.txt" 5
        "text/plain" 0).1 "d1" exFid [[104, 101], [108, 108, 111]]) "d1" exFid).1
        "d2" exFid =
      ((fileComplete (uploadChunks (fileStart (exSt []) "d1" exFid "hi.txt" 5
          "text/plain" 0).1 "d1" exFid [[104, 101], [108, 108, 111]]) "d1" exFid).1,
        ("d2", Frame.fileDownloadStart exFid "hi.txt" 5 "text/plain")
          :: (downloadChunks ([[104, 101], [108, 108, 111]] : List (List Byte)).flatten).map
              (fun c => ("d2", Frame.binaryFrame (idHeader exFid ++ c)))
          ++ [("d2", Frame.fileDownloadComplete exFid)]) ∧
    (downloadChunks ([[104, 101], [108, 108, 111]] : List (List Byte)).flatten).flatten =
      ([[104, 101], [108, 108, 111]] : List (List Byte)).flatten ∧
    (downloadChunks ([[104, 101], [108, 108, 111]] : List (List Byte)).flatten).length =
      (([[104, 101], [108, 108, 111]] : List (List Byte)).flatten.length + chunkSize - 1)
        / chunkSize ∧
    (∀ c ∈ downloadChunks ([[104, 101], [108, 108, 111]] : List (List Byte)).flatten,
      c.length ≤ chunkSize) ∧
    (idHeader exFid).length = 36 :=
  c3_download_roundtrip (exSt []) "d1" "d2" "ABCDEF" exFid "hi.txt" "text/plain" 5 0
    [[104, 101], [108, 108, 111]]
    ⟨[("d1", exDevOpen "d1"), ("d2", exDevOpen "d2")], [], 0⟩ rfl rfl rfl rfl

/-! ### C7 -/

theorem mapGet_append_of_ne {α : Type} (l1 l2 : JMap α) (k : String)
    (h : ∀ p ∈ l1, p.1 ≠ k) : mapGet (l1 ++ l2) k = mapGet l2 k := by
  induction l1 with
  | nil => rfl
  | cons a t ih =>
    have ha : (a.1 == k) = false := by
      simpa using h a (List.mem_cons_self a t)
    rw [List.cons_append, mapGet_cons, ha]
    simpa using ih (fun p hp => h p (List.mem_cons_of_mem _ hp))

theorem mapGet_nodup_split {α : Type} {m : JMap α} {k : String} {v : α}
    (hget : mapGet m k = some v) (hnd : (m.map (fun p => p.1)).Nodup) :
    ∃ l1 l2, m = l1 ++ (k, v) :: l2 ∧
      (∀ p ∈ l1, p.1 ≠ k) ∧ (∀ p ∈ l2, p.1 ≠ k) := by
  rcases List.append_of_mem (mapGet_mem hget) with ⟨l1, l2, rfl⟩
  rw [List.map_append, List.map_cons] at hnd
  refine ⟨l1, l2, rfl, ?_, ?_⟩
  · intro p hp hpk
    exact (List.disjoint_of_nodup_append hnd)
      (List.mem_map.mpr ⟨p, hp, hpk⟩) (List.mem_cons_self _ _)
  · intro p hp hpk
    have hr := (List.nodup_append.mp hnd).2.1
    rw [List.nodup_cons] at hr
    exact hr.1 (List.mem_map.mpr ⟨p, hp, hpk⟩)

theorem mem_eq_of_mapGet_nodup {α : Type} {m : JMap α} {k : String} {v : α}
    (hget : mapGet m k = some v) (hnd : (m.map (fun p => p.1)).Nodup) :
    ∀ p ∈ m, p.1 = k → p = (k, v) := by
  rcases mapGet_nodup_split hget hnd with ⟨l1, l2, rfl, hl1, hl2⟩
  intro p hp hpk
  rcases List.mem_append.mp hp with hp1 | hp2
  · exact absurd hpk (hl1 p hp1)
  · rcases List.mem_cons.mp hp2 with rfl | hp3
    · rfl
    · exact absurd hpk (hl2 p hp3)

theorem count_devices_ne (devices : JMap Device) (d : String) (fr fr2 : Frame)
    (h : ∀ q ∈ devices, q.1 ≠ d) :
    ((devices.filterMap (fun q =>
        if q.2.wsOpen then some (q.1, fr2) else none)).count (d, fr)) = 0 := by
  rw [List.count_eq_zero]
  intro hmem
  rcases List.mem_filterMap.mp hmem with ⟨q, hq, hif⟩
  by_cases hw : q.2.wsOpen
  · rw [if_pos hw] at hif
    injection hif with hif
    exact h q hq (congrArg Prod.fst hif)
  · rw [if_neg hw] at hif
    exact absurd hif (by simp)

theorem count_devices_one (devices : JMap Device) (d : String) (fr : Frame)
    (dev : Device) (hdev : mapGet devices d = some dev) (hopen : dev.wsOpen = true)
    (hnd : (devices.map (fun p => p.1)).Nodup) :
    ((devices.filterMap (fun q =>
        if q.2.wsOpen then some (q.1, fr) else none)).count (d, fr)) = 1 := by
  rcases mapGet_nodup_split hdev hnd with ⟨l1, l2, rfl, hl1, hl2⟩
  have e1 := count_devices_ne l1 d fr fr hl1
  have e2 := count_devices_ne l2 d fr fr hl2
  simp [List.filterMap_append, List.count_append, List.filterMap_cons, hopen,
    List.count_cons, e1, e2]

theorem count_files_sends_ne (files : JMap JFile) (devices : JMap Device)
    (d fid : String) (h : ∀ p ∈ files, p.1 ≠ fid) :
    ((files.flatMap (fun p => devices.filterMap (fun q =>
        if q.2.wsOpen then some (q.1, Frame.fileRemoved p.1) else none))).count
      (d, Frame.fileRemoved fid)) = 0 := by
  rw [List.count_eq_zero]
  intro hmem
  rcases List.mem_flatMap.mp hmem with ⟨p, hp, hq⟩
  rcases List.mem_filterMap.mp hq with ⟨q, hq2, hif⟩
  by_cases hw : q.2.wsOpen
  · rw [if_pos hw] at hif
    injection hif with hif
    have h2 : Frame.fileRemoved p.1 = Frame.fileRemoved fid := congrArg Prod.snd hif
    injection h2 with hfid
    exact h p hp hfid
  · rw [if_neg hw] at hif
    exact absurd hif (by simp)

theorem count_sweep_zero (s : Session) (cutoff : Nat) (d fid : String)
    (h : ∀ p ∈ s.files, p.1 ≠ fid) :
    ((sweepSession s cutoff).2).count (d, Frame.fileRemoved fid) = 0 :=
  count_files_sends_ne _ _ _ _ (fun p hp => h p (List.mem_of_mem_filter hp))

theorem count_sweep_one (s : Session) (cutoff : Nat) (d fid : String)
    (file : JFile) (dev : Device)
    (hfile : mapGet s.files fid = some file)
    (hfnd : (s.files.map (fun p => p.1)).Nodup)
    (hold : file.uploadedAt < cutoff)
    (hdev : mapGet s.devices d = some dev) (hopen : dev.wsOpen = true)
    (hdnd : (s.devices.map (fun p => p.1)).Nodup) :
    ((sweepSession s cutoff).2).count (d, Frame.fileRemoved fid) = 1 := by
  rcases mapGet_nodup_split hfile hfnd with ⟨l1, l2, hsplit, hl1, hl2⟩
  have hsends : (sweepSession s cutoff).2 =
      (s.files.filter (fun p => p.2.uploadedAt < cutoff)).flatMap (fun p =>
        s.devices.filterMap (fun q =>
          if q.2.wsOpen then some (q.1, Frame.fileRemoved p.1) else none)) := rfl
  rw [hsends, hsplit, List.filter_append, List.filter_cons]
  rw [if_pos (by simpa using hold)]
  rw [List.flatMap_append, List.flatMap_cons, List.count_append, List.count_append]
  have e1 := count_files_sends_ne (l1.filter (fun p => p.2.uploadedAt < cutoff))
    s.devices d fid (fun p hp => hl1 p (List.mem_of_mem_filter hp))
  have e2 := count_files_sends_ne (l2.filter (fun p => p.2.uploadedAt < cutoff))
    s.devices d fid (fun p hp => hl2 p (List.mem_of_mem_filter hp))
  have e3 := count_devices_one s.devices d (Frame.fileRemoved fid) dev hdev hopen hdnd
  rw [e1, e2]
  simpa using e3

theorem count_flatten_sweeps_zero (cutoff : Nat) (d fid : String) :
    ∀ (L : JMap Session), (∀ q ∈ L, ∀ p ∈ q.2.files, p.1 ≠ fid) →
      ((L.map (fun p => (sweepSession p.2 cutoff).2)).flatten).count
        (d, Frame.fileRemoved fid) = 0 := by
  intro L
  induction L with
  | nil => intro _; rfl
  | cons a t ih =>
    intro hL
    rw [List.map_cons, List.flatten_cons, List.count_append,
      count_sweep_zero _ _ _ _ (hL a (List.mem_cons_self _ _)),
      ih (fun q hq => hL q (List.mem_cons_of_mem _ hq))]

/-- C7: after a janitor tick, a file whose uploadedAt is strictly older than
    FILE_TTL is absent from its session's file store (the session itself, having a
    member, survives), and an open member of that session has received exactly one
    file_removed frame carrying that fileId among all frames the tick emitted. -/
theorem c7_janitor_ttl (st : HubState) (now : Nat) (sc fid d : String)
    (session : Session) (file : JFile) (dev : Device)
    (h2 : mapGet st.sessions sc = some session)
    (h3 : mapGet session.files fid = some file)
    (hold : file.uploadedAt + FILE_TTL < now)
    (hdev : mapGet session.devices d = some dev)
    (hopen : dev.wsOpen = true)
    (hsnd : (st.sessions.map (fun p => p.1)).Nodup)
    (hfnd : (session.files.map (fun p => p.1)).Nodup)
    (hdnd : (session.devices.map (fun p => p.1)).Nodup)
    (hother : ∀ q ∈ st.sessions, q.1 ≠ sc → ∀ p ∈ q.2.files, p.1 ≠ fid) :
    (∃ session3, mapGet (janitorTick st now).1.sessions sc = some session3 ∧
        mapGet session3.files fid = none) ∧
    ((janitorTick st now).2).count (d, Frame.fileRemoved fid) = 1 := by
  have hcut : file.uploadedAt < now - FILE_TTL := by omega
  rcases mapGet_nodup_split h2 hsnd with ⟨L1, L2, hS, hL1, hL2⟩
  have hSmem : ∀ q, q ∈ L1 ∨ q ∈ L2 → q ∈ st.sessions := by
    intro q hq
    rw [hS]
    rcases hq with hq | hq
    · exact List.mem_append.mpr (Or.inl hq)
    · exact List.mem_append.mpr (Or.inr (List.mem_cons_of_mem _ hq))
  constructor
  · -- the file is gone from the surviving session
    have hsess : (janitorTick st now).1.sessions =
        ((st.sessions.map (fun p => (p.1, (sweepSession p.2 (now - FILE_TTL)).1))).filter
          (fun p => !((p.2.devices.length == 0)
            && (decide (p.2.createdAt < now - FILE_TTL))))) := by
      simp [janitorTick, List.map_map, Function.comp_def]
    have hne : (session.devices.length == 0) = false := by
      have hmem := mapGet_mem hdev
      cases hd : session.devices with
      | nil => rw [hd] at hmem; simp at hmem
      | cons a t => simp [hd]
    rw [hsess, hS, List.map_append, List.map_cons, List.filter_append, List.filter_cons]
    have hkeep : (!((((sweepSession session (now - FILE_TTL)).1).devices.length == 0)
        && (decide (((sweepSession session (now - FILE_TTL)).1).createdAt
          < now - FILE_TTL)))) = true := by
      have hdevs : ((sweepSession session (now - FILE_TTL)).1).devices =
          session.devices := rfl
      rw [hdevs, hne]
      rfl
    rw [if_pos hkeep]
    refine ⟨(sweepSession session (now - FILE_TTL)).1, ?_, ?_⟩
    · rw [mapGet_append_of_ne]
      · rw [mapGet_cons]
        simp
      · intro p hp hpk
        have hp2 := List.mem_of_mem_filter hp
        rcases List.mem_map.mp hp2 with ⟨q, hq, hqe⟩
        rw [← hqe] at hpk
        exact hL1 q hq hpk
    · apply mapGet_none_of_all_ne
      intro p hp hpk
      have hpm : p ∈ session.files := List.mem_of_mem_filter hp
      have hcond := List.of_mem_filter hp
      have hpe : p = (fid, file) := mem_eq_of_mapGet_nodup h3 hfnd p hpm hpk
      rw [hpe] at hcond
      simp at hcond
      exact absurd hcut (by omega)
  · -- exactly one file_removed for (d, fid)
    have hsends : (janitorTick st now).2 =
        (st.sessions.map (fun p => (sweepSession p.2 (now - FILE_TTL)).2)).flatten := by
      simp [janitorTick, List.map_map, Function.comp_def]
    rw [hsends, hS, List.map_append, List.map_cons, List.flatten_append,
      List.flatten_cons, List.count_append, List.count_append]
    rw [count_flatten_sweeps_zero _ _ _ L1
      (fun q hq => hother q (hSmem q (Or.inl hq)) (hL1 q hq))]
    rw [count_flatten_sweeps_zero _ _ _ L2
      (fun q hq => hother q (hSmem q (Or.inr hq)) (hL2 q hq))]
    rw [count_sweep_one session (now - FILE_TTL) d fid file dev h3 hfnd hcut hdev
      hopen hdnd]

/-- Witness for c7_janitor_ttl: a file uploaded at time 0 is swept by the tick at
    FILE_TTL + 1000 ms, and member d2 gets exactly one file_removed for it. -/
theorem c7_janitor_ttl_witness :
    (∃ session3,
        mapGet (janitorTick (exSt [(exFid, completedFile)]) (FILE_TTL + 1000)).1.sessions
          "ABCDEF" = some session3 ∧
        mapGet session3.files exFid = none) ∧
    ((janitorTick (exSt [(exFid, completedFile)]) (FILE_TTL + 1000)).2).count
      ("d2", Frame.fileRemoved exFid) = 1 :=
  c7_janitor_ttl (exSt [(exFid, completedFile)]) (FILE_TTL + 1000) "ABCDEF" exFid "d2"
    ⟨[("d1", exDevOpen "d1"), ("d2", exDevOpen "d2")], [(exFid, completedFile)], 0⟩
    completedFile (exDevOpen "d2") rfl rfl (by decide) rfl rfl (by decide) (by decide)
    (by decide) (by decide)
